import Mathlib

/-!
# HID device sessions on macOS (`hid_darwin.go`)

A shallow embedding of the Go source file `hid_darwin.go` and the properties
established for it.

Conventions of the embedding

* C and Go pointers (`IOHIDDeviceRef`, `*osxDevice`, `CFRunLoopRef`, buffers)
  are natural numbers, `0` being `nil`.
* A Go `error` is an `Option String`: `none` is `nil`, `some msg` is
  `errors.New(msg)`.
* A Go run-time panic is a `Fault`; functions that can panic return
  `Except Fault _`.
* Go maps are association lists with unique keys (`mapGet`, `mapSet`,
  `mapDelete`).
* Everything the operating system decides (properties of a device, the set of
  attached devices, the status of a native call) is a field of `Native`.
* The calls made on a device and on the device manager are recorded, in order,
  in `World.trace`.
-/

namespace Hid

/-! ## Go maps -/

/-- Go map read `m[k]`: `none` when the key is missing. -/
def mapGet {α : Type} : List (Nat × α) → Nat → Option α
  | [], _ => none
  | (k', v) :: rest, k => if k' = k then some v else mapGet rest k

/-- Go `delete(m, k)`. -/
def mapDelete {α : Type} (m : List (Nat × α)) (k : Nat) : List (Nat × α) :=
  m.filter (fun e => decide (e.1 ≠ k))

/-- Go map write `m[k] = v`. -/
def mapSet {α : Type} (m : List (Nat × α)) (k : Nat) (v : α) : List (Nat × α) :=
  (k, v) :: mapDelete m k

/-! ## Status codes: `ioReturnToErr` -/

/-- The `IOReturn` constants named by the switch of `ioReturnToErr`. Their
numeric values come from IOKit's `IOReturn.h`, which is not part of the
repository; every definition below takes them as a parameter
`K : IOReturnName → Int`. -/
inductive IOReturnName where
  | kIOReturnSuccess
  | kIOReturnError
  | kIOReturnNoMemory
  | kIOReturnNoResources
  | kIOReturnIPCError
  | kIOReturnNoDevice
  | kIOReturnNotPrivileged
  | kIOReturnBadArgument
  | kIOReturnLockedRead
  | kIOReturnLockedWrite
  | kIOReturnExclusiveAccess
  | kIOReturnBadMessageID
  | kIOReturnUnsupported
  | kIOReturnVMError
  | kIOReturnInternalError
  | kIOReturnIOError
  | kIOReturnCannotLock
  | kIOReturnNotOpen
  | kIOReturnNotReadable
  | kIOReturnNotWritable
  | kIOReturnNotAligned
  | kIOReturnBadMedia
  | kIOReturnStillOpen
  | kIOReturnRLDError
  | kIOReturnDMAError
  | kIOReturnBusy
  | kIOReturnTimeout
  | kIOReturnOffline
  | kIOReturnNotReady
  | kIOReturnNotAttached
  | kIOReturnNoChannels
  | kIOReturnNoSpace
  | kIOReturnPortExists
  | kIOReturnCannotWire
  | kIOReturnNoInterrupt
  | kIOReturnNoFrames
  | kIOReturnMessageTooLarge
  | kIOReturnNotPermitted
  | kIOReturnNoPower
  | kIOReturnNoMedia
  | kIOReturnUnformattedMedia
  | kIOReturnUnsupportedMode
  | kIOReturnUnderrun
  | kIOReturnOverrun
  | kIOReturnDeviceError
  | kIOReturnNoCompletion
  | kIOReturnAborted
  | kIOReturnNoBandwidth
  | kIOReturnNotResponding
  | kIOReturnIsoTooOld
  | kIOReturnIsoTooNew
  | kIOReturnNotFound
  deriving DecidableEq, Repr

open IOReturnName in
/-- The cases of the switch in `ioReturnToErr`, top to bottom, each with the
value it returns. -/
def ioReturnCases : List (IOReturnName × Option String) :=
  [ (kIOReturnSuccess, none),
    (kIOReturnError, some "general error "),
    (kIOReturnNoMemory, some "can't allocate memory"),
    (kIOReturnNoResources, some "resource shortage"),
    (kIOReturnIPCError, some "error during IPC"),
    (kIOReturnNoDevice, some "no such device"),
    (kIOReturnNotPrivileged, some "privilege violation"),
    (kIOReturnBadArgument, some "invalid argument"),
    (kIOReturnLockedRead, some "device read locked"),
    (kIOReturnLockedWrite, some "device write locked"),
    (kIOReturnExclusiveAccess, some "exclusive access and device already open"),
    (kIOReturnBadMessageID, some "sent/received messages had different msg_id"),
    (kIOReturnUnsupported, some "unsupported function"),
    (kIOReturnVMError, some "misc. VM failure"),
    (kIOReturnInternalError, some "internal error"),
    (kIOReturnIOError, some "General I/O error"),
    (kIOReturnCannotLock, some "can't acquire lock"),
    (kIOReturnNotOpen, some "device not open"),
    (kIOReturnNotReadable, some "read not supported"),
    (kIOReturnNotWritable, some "write not supported"),
    (kIOReturnNotAligned, some "alignment error"),
    (kIOReturnBadMedia, some "Media Error"),
    (kIOReturnStillOpen, some "device(s) still open"),
    (kIOReturnRLDError, some "rld failure"),
    (kIOReturnDMAError, some "DMA failure"),
    (kIOReturnBusy, some "Device Busy"),
    (kIOReturnTimeout, some "I/O Timeout"),
    (kIOReturnOffline, some "device offline"),
    (kIOReturnNotReady, some "not ready"),
    (kIOReturnNotAttached, some "device not attached"),
    (kIOReturnNoChannels, some "no DMA channels left"),
    (kIOReturnNoSpace, some "no space for data"),
    (kIOReturnPortExists, some "port already exists"),
    (kIOReturnCannotWire, some "can't wire down physical memory"),
    (kIOReturnNoInterrupt, some "no interrupt attached"),
    (kIOReturnNoFrames, some "no DMA frames enqueued"),
    (kIOReturnMessageTooLarge, some "oversized msg received on interrupt port"),
    (kIOReturnNotPermitted, some "not permitted"),
    (kIOReturnNoPower, some "no power to device"),
    (kIOReturnNoMedia, some "media not present"),
    (kIOReturnUnformattedMedia, some "media not formatted"),
    (kIOReturnUnsupportedMode, some "no such mode"),
    (kIOReturnUnderrun, some "data underrun"),
    (kIOReturnOverrun, some "data overrun"),
    (kIOReturnDeviceError, some "the device is not working properly!"),
    (kIOReturnNoCompletion, some "a completion routine is required"),
    (kIOReturnAborted, some "operation aborted"),
    (kIOReturnNoBandwidth, some "bus bandwidth would be exceeded"),
    (kIOReturnNotResponding, some "device not responding"),
    (kIOReturnIsoTooOld, some "isochronous I/O request for distant past!"),
    (kIOReturnIsoTooNew, some "isochronous I/O request for distant future"),
    (kIOReturnNotFound, some "data was not found") ]

/-- A Go `switch ret` over constant cases: the first case whose constant equals
`ret` is taken; `none` when no case matches. -/
def switchFind (K : IOReturnName → Int) (ret : Int) :
    List (IOReturnName × Option String) → Option (Option String)
  | [] => none
  | (c, r) :: rest => if ret = K c then some r else switchFind K ret rest

/-- Go `ioReturnToErr`: the switch, then the fall-through
`errors.New("Unknown error")`. -/
def ioReturnToErr (K : IOReturnName → Int) (ret : Int) : Option String :=
  match switchFind K ret ioReturnCases with
  | some r => r
  | none => some "Unknown error"

/-- The values of the constants in IOKit's `IOReturn.h` (`KERN_SUCCESS` and
`iokit_common_err(0x2bc ..)`, read as a signed 32-bit `IOReturn`). The header is
not part of the repository; this table is only used as a sample instance of
the parameter `K`. -/
def iokitCodes : IOReturnName → Int
  | .kIOReturnSuccess => 0
  | .kIOReturnError => 0xe00002bc - 2 ^ 32
  | .kIOReturnNoMemory => 0xe00002bd - 2 ^ 32
  | .kIOReturnNoResources => 0xe00002be - 2 ^ 32
  | .kIOReturnIPCError => 0xe00002bf - 2 ^ 32
  | .kIOReturnNoDevice => 0xe00002c0 - 2 ^ 32
  | .kIOReturnNotPrivileged => 0xe00002c1 - 2 ^ 32
  | .kIOReturnBadArgument => 0xe00002c2 - 2 ^ 32
  | .kIOReturnLockedRead => 0xe00002c3 - 2 ^ 32
  | .kIOReturnLockedWrite => 0xe00002c4 - 2 ^ 32
  | .kIOReturnExclusiveAccess => 0xe00002c5 - 2 ^ 32
  | .kIOReturnBadMessageID => 0xe00002c6 - 2 ^ 32
  | .kIOReturnUnsupported => 0xe00002c7 - 2 ^ 32
  | .kIOReturnVMError => 0xe00002c8 - 2 ^ 32
  | .kIOReturnInternalError => 0xe00002c9 - 2 ^ 32
  | .kIOReturnIOError => 0xe00002ca - 2 ^ 32
  | .kIOReturnCannotLock => 0xe00002cc - 2 ^ 32
  | .kIOReturnNotOpen => 0xe00002cd - 2 ^ 32
  | .kIOReturnNotReadable => 0xe00002ce - 2 ^ 32
  | .kIOReturnNotWritable => 0xe00002cf - 2 ^ 32
  | .kIOReturnNotAligned => 0xe00002d0 - 2 ^ 32
  | .kIOReturnBadMedia => 0xe00002d1 - 2 ^ 32
  | .kIOReturnStillOpen => 0xe00002d2 - 2 ^ 32
  | .kIOReturnRLDError => 0xe00002d3 - 2 ^ 32
  | .kIOReturnDMAError => 0xe00002d4 - 2 ^ 32
  | .kIOReturnBusy => 0xe00002d5 - 2 ^ 32
  | .kIOReturnTimeout => 0xe00002d6 - 2 ^ 32
  | .kIOReturnOffline => 0xe00002d7 - 2 ^ 32
  | .kIOReturnNotReady => 0xe00002d8 - 2 ^ 32
  | .kIOReturnNotAttached => 0xe00002d9 - 2 ^ 32
  | .kIOReturnNoChannels => 0xe00002da - 2 ^ 32
  | .kIOReturnNoSpace => 0xe00002db - 2 ^ 32
  | .kIOReturnPortExists => 0xe00002dd - 2 ^ 32
  | .kIOReturnCannotWire => 0xe00002de - 2 ^ 32
  | .kIOReturnNoInterrupt => 0xe00002df - 2 ^ 32
  | .kIOReturnNoFrames => 0xe00002e0 - 2 ^ 32
  | .kIOReturnMessageTooLarge => 0xe00002e1 - 2 ^ 32
  | .kIOReturnNotPermitted => 0xe00002e2 - 2 ^ 32
  | .kIOReturnNoPower => 0xe00002e3 - 2 ^ 32
  | .kIOReturnNoMedia => 0xe00002e4 - 2 ^ 32
  | .kIOReturnUnformattedMedia => 0xe00002e5 - 2 ^ 32
  | .kIOReturnUnsupportedMode => 0xe00002e6 - 2 ^ 32
  | .kIOReturnUnderrun => 0xe00002e7 - 2 ^ 32
  | .kIOReturnOverrun => 0xe00002e8 - 2 ^ 32
  | .kIOReturnDeviceError => 0xe00002e9 - 2 ^ 32
  | .kIOReturnNoCompletion => 0xe00002ea - 2 ^ 32
  | .kIOReturnAborted => 0xe00002eb - 2 ^ 32
  | .kIOReturnNoBandwidth => 0xe00002ec - 2 ^ 32
  | .kIOReturnNotResponding => 0xe00002ed - 2 ^ 32
  | .kIOReturnIsoTooOld => 0xe00002ee - 2 ^ 32
  | .kIOReturnIsoTooNew => 0xe00002ef - 2 ^ 32
  | .kIOReturnNotFound => 0xe00002f0 - 2 ^ 32

/-! ## Property accessor: `getIntProp`, `getStringProp`, `getPath` -/

/-- A CoreFoundation object as returned by `IOHIDDeviceGetProperty`. For a
`number`, `v` is the value `CFNumberGetValue` delivers for
`kCFNumberSInt32Type`. -/
inductive CFValue where
  | number (v : Int)
  | string (s : String)
  | other (tag : Nat)
  deriving DecidableEq, Repr

/-- The property keys used by the source (the `kIOHID...Key` C macros). -/
inductive PropKey where
  | kIOHIDTransportKey
  | kIOHIDVendorIDKey
  | kIOHIDProductIDKey
  | kIOHIDVersionNumberKey
  | kIOHIDManufacturerKey
  | kIOHIDProductKey
  | kIOHIDPrimaryUsagePageKey
  | kIOHIDPrimaryUsageKey
  | kIOHIDMaxInputReportSizeKey
  | kIOHIDMaxOutputReportSizeKey
  | kIOHIDMaxFeatureReportSizeKey
  | kIOHIDLocationIDKey
  deriving DecidableEq, Repr

/-- The three HID report types (`IOHIDReportType`). -/
inductive IOHIDReportType where
  | kIOHIDReportTypeInput
  | kIOHIDReportTypeOutput
  | kIOHIDReportTypeFeature
  deriving DecidableEq, Repr

/-- Everything the operating system decides. -/
structure Native where
  /-- The numeric values of the `IOReturn` constants. -/
  K : IOReturnName → Int
  /-- `IOHIDDeviceGetProperty(device, key)`; `none` is a `NULL` result. -/
  getProperty : Nat → PropKey → Option CFValue
  /-- The bytes `CFStringGetBytes` yields for an object that is not a
  `CFString` (the cast in `getStringProp` is unchecked). -/
  foreignString : CFValue → String
  /-- `IOHIDManagerCreate`: the manager reference. -/
  managerCreate : Nat
  /-- The device references `CFSetGetValues` writes for the set returned by
  `IOHIDManagerCopyDevices`, in that order. -/
  copyDevices : List Nat
  /-- Status returned by `IOHIDDeviceOpen(device, kIOHIDOptionsTypeSeizeDevice)`. -/
  deviceOpen : Nat → Int
  /-- Pointer returned by `C.malloc(size)`. -/
  malloc : Nat → Nat
  /-- Status returned by `IOHIDDeviceSetReport(device, typ, reportNo, data, len)`. -/
  setReport : Nat → IOHIDReportType → Nat → List Nat → Int
  /-- `CFRunLoopGetCurrent()` in the read goroutine of a device. -/
  runLoopGetCurrent : Nat → Nat

/-- Wrap an integer into the range of a Go `int32`. -/
def toInt32 (v : Int) : Int := (v + 2 ^ 31) % 2 ^ 32 - 2 ^ 31

/-- Go conversion `uint16(x)` of an `int32`. -/
def uint16 (x : Int) : Nat := (x % 2 ^ 16).toNat

/-- Go conversion `uint32(x)` of an `int32`. -/
def uint32 (x : Int) : Nat := (x % 2 ^ 32).toNat

/-- Go `gostring` applied to the result of the cast `C.CFStringRef(s)`: `""`
for `nil`, `""` when no character converts (`n <= 0`), the UTF-8 bytes of the
string otherwise. -/
def gostring (N : Native) (cfs : Option CFValue) : String :=
  match cfs with
  | none => ""
  | some (CFValue.string s) => if s.length ≤ 0 then "" else s
  | some v => N.foreignString v

/-- Go `getIntProp`. -/
def getIntProp (N : Native) (device : Nat) (key : PropKey) : Int :=
  match N.getProperty device key with
  | some (CFValue.number v) => toInt32 v
  | _ => 0

/-- Go `getStringProp`. -/
def getStringProp (N : Native) (device : Nat) (key : PropKey) : String :=
  gostring N (N.getProperty device key)

/-- The verb `%0<width>x` of `fmt.Sprintf` on an unsigned integer: lowercase
hexadecimal digits, padded on the left with `0` up to `width`. -/
def fmtHex (width n : Nat) : String :=
  String.mk (List.replicate (width - (Nat.toDigits 16 n).length) '0' ++ Nat.toDigits 16 n)

/-- Go `getPath`: `fmt.Sprintf("%s_%04x_%04x_%08x", ...)`. -/
def getPath (N : Native) (osDev : Nat) : String :=
  getStringProp N osDev PropKey.kIOHIDTransportKey ++ "_" ++
    fmtHex 4 (uint16 (getIntProp N osDev PropKey.kIOHIDVendorIDKey)) ++ "_" ++
    fmtHex 4 (uint16 (getIntProp N osDev PropKey.kIOHIDProductIDKey)) ++ "_" ++
    fmtHex 8 (uint32 (getIntProp N osDev PropKey.kIOHIDLocationIDKey))

/-- The value of a list of lowercase hexadecimal digits. -/
def hexValue (cs : List Char) : Nat :=
  cs.foldl (fun acc c => 16 * acc + (if c.isDigit then c.toNat - 48 else c.toNat - 87)) 0

/-- A lowercase hexadecimal digit. -/
def isLowerHex (c : Char) : Bool := c ∈ "0123456789abcdef".data

/-! ## Enumeration: `iterateDevices`, `Devices`, `ByPath` -/

/-- Go run-time panics. -/
inductive Fault where
  | indexOutOfRange
  | nilDereference
  | sendOnClosedChannel
  deriving DecidableEq, Repr

/-- Modelled from the spec: the `DeviceInfo` type is declared outside
`hid_darwin.go`; its fields are those of the spec's DeviceIdentity, which are
also the fields `Devices` assigns. -/
structure DeviceInfo where
  VendorId : Nat
  ProductId : Nat
  VersionNumber : Nat
  Manufacturer : String
  Product : String
  UsagePage : Nat
  Usage : Nat
  InputReportLength : Nat
  OutputReportLength : Nat
  FeatureReportLength : Nat
  Path : String
  deriving DecidableEq, Repr

/-- Go `cleanupDeviceManagerFn`: the closure returned by `iterateDevices`,
which captures the manager `mgr`. -/
structure cleanupDeviceManagerFn where
  mgr : Nat
  deriving DecidableEq, Repr

/-- The loop `for _, pDev := range allDevices` of `iterateDevices`; `action`
returns the updated captured state and the boolean result (`false` breaks). -/
def iterateLoop {σ : Type} (action : σ → Nat → σ × Bool) : List Nat → σ → σ
  | [], s => s
  | d :: ds, s =>
    if (action s d).2 then iterateLoop action ds (action s d).1 else (action s d).1

/-- Go `iterateDevices`. `s` is the state captured by the closure `action`.
The expression `&allDevices[0]` panics when the slice is empty. -/
def iterateDevices {σ : Type} (N : Native) (action : σ → Nat → σ × Bool) (s : σ) :
    Except Fault (σ × cleanupDeviceManagerFn) :=
  match N.copyDevices with
  | [] => Except.error Fault.indexOutOfRange
  | allDevices => Except.ok (iterateLoop action allDevices s, ⟨N.managerCreate⟩)

/-- The `DeviceInfo` literal built by the closure of `Devices`. -/
def deviceInfoOf (N : Native) (device : Nat) : DeviceInfo where
  VendorId := uint16 (getIntProp N device PropKey.kIOHIDVendorIDKey)
  ProductId := uint16 (getIntProp N device PropKey.kIOHIDProductIDKey)
  VersionNumber := uint16 (getIntProp N device PropKey.kIOHIDVersionNumberKey)
  Manufacturer := getStringProp N device PropKey.kIOHIDManufacturerKey
  Product := getStringProp N device PropKey.kIOHIDProductKey
  UsagePage := uint16 (getIntProp N device PropKey.kIOHIDPrimaryUsagePageKey)
  Usage := uint16 (getIntProp N device PropKey.kIOHIDPrimaryUsageKey)
  InputReportLength := uint16 (getIntProp N device PropKey.kIOHIDMaxInputReportSizeKey)
  OutputReportLength := uint16 (getIntProp N device PropKey.kIOHIDMaxOutputReportSizeKey)
  FeatureReportLength := uint16 (getIntProp N device PropKey.kIOHIDMaxFeatureReportSizeKey)
  Path := getPath N device

/-- Go `Devices`: the closure appends to `result` and returns `true`; the
returned error is always `nil`. -/
def Devices (N : Native) : Except Fault (List DeviceInfo × Option String) :=
  match iterateDevices N (fun result device => (result ++ [deviceInfoOf N device], true)) [] with
  | Except.error e => Except.error e
  | Except.ok (result, _) => Except.ok (result, none)

/-- The loop `for _, d := range devices` of `ByPath`, with its fall-through
return. -/
def byPathScan (path : String) : List DeviceInfo → Option DeviceInfo × Option String
  | [] => (none, some "Device not found")
  | d :: ds => if d.Path = path then (some d, none) else byPathScan path ds

/-- Go `ByPath`. -/
def ByPath (N : Native) (path : String) : Except Fault (Option DeviceInfo × Option String) :=
  match Devices N with
  | Except.error e => Except.error e
  | Except.ok (devices, err) =>
    match err with
    | some e => Except.ok (none, some e)
    | none => Except.ok (byPathScan path devices)

/-! ## Sessions: `osxDevice`, the registry `deviceCtx`, `Open`, `Close` -/

/-- A buffered Go channel `chan []byte`. The channel made by `startReadThread`
is only reachable through the `readCh` field of its device, so its state is
kept in that field; `id` is the identity of the channel object. -/
structure Chan where
  id : Nat
  cap : Nat
  buf : List (List Nat)
  closed : Bool
  deriving DecidableEq, Repr

/-- Go `osxDevice`. `readSetup` is the done flag of the `sync.Once`; `readCh`
is `none` for a `nil` channel. -/
structure osxDevice where
  osDevice : Nat
  disconnected : Bool
  closeDM : Option cleanupDeviceManagerFn
  readSetup : Bool
  readCh : Option Chan
  readBufLen : Nat
  readBuf : Nat
  runLoop : Nat
  deriving DecidableEq, Repr

/-- The steps recorded in the trace: the native calls made on a device or on
the device manager, the writes to the registry, and the start of the read
goroutine. A `callback` flag is `false` when `nil` is registered. -/
inductive Event where
  | IOHIDDeviceOpen (device : Nat)
  | CFRetain (ref : Nat)
  | CFRelease (ref : Nat)
  | IOHIDDeviceRegisterRemovalCallback (device : Nat) (callback : Bool)
  | malloc (size ptr : Nat)
  | free (ptr : Nat)
  | IOHIDDeviceRegisterInputReportCallback (device buf len : Nat) (callback : Bool)
      (context : Nat)
  | IOHIDDeviceScheduleWithRunLoop (device loop : Nat)
  | IOHIDDeviceUnscheduleFromRunLoop (device loop : Nat)
  | CFRunLoopRun
  | CFRunLoopStop (loop : Nat)
  | IOHIDDeviceClose (device : Nat)
  | IOHIDManagerClose (mgr : Nat)
  | IOHIDDeviceSetReport (device : Nat) (typ : IOHIDReportType) (reportNo : Nat)
      (data : List Nat)
  | registryInsert (key dev : Nat)
  | registryDelete (key : Nat)
  | goReadThread (dev : Nat)
  deriving DecidableEq, Repr

/-- The program state: the Go heap of `osxDevice` objects, the global map
`deviceCtx`, an allocation counter for fresh Go objects, and the trace. -/
structure World where
  heap : List (Nat × osxDevice)
  deviceCtx : List (Nat × Nat)
  next : Nat
  trace : List Event
  deriving DecidableEq, Repr

/-- The variables captured by the closure of `Open`. -/
structure OpenVars where
  err : Option String
  dev : Nat
  w : World

/-- The closure passed to `iterateDevices` by `Open`. -/
def openAction (N : Native) (di : DeviceInfo) (s : OpenVars) (device : Nat) : OpenVars × Bool :=
  if getPath N device = di.Path then
    if N.deviceOpen device = N.K IOReturnName.kIOReturnSuccess then
      ({ err := none
         dev := s.w.next + 1
         w :=
          { heap := mapSet s.w.heap (s.w.next + 1)
              { osDevice := device, disconnected := false, closeDM := none, readSetup := false,
                readCh := none, readBufLen := 0, readBuf := 0, runLoop := 0 }
            deviceCtx := mapSet s.w.deviceCtx device (s.w.next + 1)
            next := s.w.next + 1
            trace := s.w.trace ++
              [Event.IOHIDDeviceOpen device, Event.CFRetain device,
               Event.registryInsert device (s.w.next + 1),
               Event.IOHIDDeviceRegisterRemovalCallback device true] } }, false)
    else
      ({ err := ioReturnToErr N.K (N.deviceOpen device)
         dev := s.dev
         w := { s.w with trace := s.w.trace ++ [Event.IOHIDDeviceOpen device] } }, false)
  else (s, true)

/-- Go `(*DeviceInfo).Open`: the new world, the returned `*osxDevice` (`0` for
`nil`) and the returned error. -/
def DeviceInfo.Open (N : Native) (w : World) (di : DeviceInfo) :
    Except Fault (World × Nat × Option String) :=
  match iterateDevices N (openAction N di) ⟨some "device not found", 0, w⟩ with
  | Except.error e => Except.error e
  | Except.ok (s, closeDM) =>
    if s.dev ≠ 0 then
      match mapGet s.w.heap s.dev with
      | none => Except.error Fault.nilDereference
      | some d =>
        Except.ok
          ({ s.w with
              heap := mapSet s.w.heap s.dev
                { d with closeDM := some closeDM, readBufLen := di.InputReportLength,
                         readBuf := N.malloc di.InputReportLength }
              trace := s.w.trace ++
                [Event.malloc di.InputReportLength (N.malloc di.InputReportLength)] },
            s.dev, s.err)
    else Except.ok (s.w, s.dev, s.err)

/-- The local view of `Close`: the receiver, the registry and the trace. -/
structure CloseState where
  dev : osxDevice
  deviceCtx : List (Nat × Nat)
  trace : List Event
  deriving DecidableEq, Repr

/-- The first `if` of `Close` (read loop teardown). -/
def closeReadLoop (s : CloseState) : CloseState :=
  if !s.dev.disconnected && s.dev.readCh.isSome then
    { s with trace := s.trace ++
        [Event.IOHIDDeviceRegisterInputReportCallback s.dev.osDevice s.dev.readBuf s.dev.readBufLen
           false s.dev.osDevice,
         Event.IOHIDDeviceUnscheduleFromRunLoop s.dev.osDevice s.dev.runLoop,
         Event.CFRunLoopStop s.dev.runLoop,
         Event.free s.dev.readBuf] }
  else s

/-- The second `if` of `Close` (close of the device). -/
def closeDevice (s : CloseState) : CloseState :=
  if !s.dev.disconnected then
    { s with
        dev := { s.dev with disconnected := true }
        trace := s.trace ++
          [Event.IOHIDDeviceRegisterRemovalCallback s.dev.osDevice false,
           Event.IOHIDDeviceClose s.dev.osDevice] }
  else s

/-- The third `if` of `Close`: `CFRelease`, then `dev.osDevice = nil`, then
`delete(deviceCtx, dev.osDevice)`, which reads the field after the
assignment. -/
def closeRelease (s : CloseState) : CloseState :=
  if s.dev.osDevice ≠ 0 then
    let released : List Event := [Event.CFRelease s.dev.osDevice]
    let dev1 : osxDevice := { s.dev with osDevice := 0 }
    { dev := dev1
      deviceCtx := mapDelete s.deviceCtx dev1.osDevice
      trace := s.trace ++ released ++ [Event.registryDelete dev1.osDevice] }
  else s

/-- The body of the closure returned by `iterateDevices`. -/
def cleanupDeviceManagerFn.run (f : cleanupDeviceManagerFn) : List Event :=
  [Event.IOHIDManagerClose f.mgr, Event.CFRelease f.mgr]

/-- The fourth `if` of `Close` (teardown hook). -/
def closeManager (s : CloseState) : CloseState :=
  match s.dev.closeDM with
  | some f => { s with dev := { s.dev with closeDM := none }, trace := s.trace ++ f.run }
  | none => s

/-- Go `(*osxDevice).Close` on the device at address `p`. -/
def osxDevice.Close (w : World) (p : Nat) : Except Fault World :=
  match mapGet w.heap p with
  | none => Except.error Fault.nilDereference
  | some dev =>
    let s := closeManager (closeRelease (closeDevice (closeReadLoop ⟨dev, w.deviceCtx, w.trace⟩)))
    Except.ok { w with heap := mapSet w.heap p s.dev, deviceCtx := s.deviceCtx, trace := s.trace }

/-- Go `deviceUnplugged`: `od := deviceCtx[osdev]` is `nil` for a missing key. -/
def deviceUnplugged (w : World) (osdev : Nat) : Except Fault World :=
  match mapGet w.deviceCtx osdev with
  | none => Except.error Fault.nilDereference
  | some p =>
    match mapGet w.heap p with
    | none => Except.error Fault.nilDereference
    | some od => osxDevice.Close { w with heap := mapSet w.heap p { od with disconnected := true } } p

/-! ## Reports: `setReport`, `Write`, `WriteFeature`, `ReadCh`, `reportCallback` -/

/-- Go `(*osxDevice).setReport`. `data[0]` panics on an empty slice, and so
does `&data[0]` after `data = data[1:]` has emptied it. -/
def osxDevice.setReport (N : Native) (w : World) (p : Nat) (typ : IOHIDReportType)
    (data : List Nat) : Except Fault (World × Option String) :=
  match data with
  | [] => Except.error Fault.indexOutOfRange
  | reportNo :: rest =>
    let data1 := if reportNo = 0 then rest else data
    match mapGet w.heap p with
    | none => Except.error Fault.nilDereference
    | some dev =>
      if !dev.disconnected then
        match data1 with
        | [] => Except.error Fault.indexOutOfRange
        | _ =>
          let w1 := { w with trace := w.trace ++
            [Event.IOHIDDeviceSetReport dev.osDevice typ reportNo data1] }
          if N.setReport dev.osDevice typ reportNo data1 = N.K IOReturnName.kIOReturnSuccess then
            Except.ok (w1, none)
          else
            Except.ok (w1, ioReturnToErr N.K (N.setReport dev.osDevice typ reportNo data1))
      else Except.ok (w, some "device disconnected")

/-- Go `(*osxDevice).WriteFeature`. -/
def osxDevice.WriteFeature (N : Native) (w : World) (p : Nat) (data : List Nat) :
    Except Fault (World × Option String) :=
  osxDevice.setReport N w p IOHIDReportType.kIOHIDReportTypeFeature data

/-- Go `(*osxDevice).Write`. -/
def osxDevice.Write (N : Native) (w : World) (p : Nat) (data : List Nat) :
    Except Fault (World × Option String) :=
  osxDevice.setReport N w p IOHIDReportType.kIOHIDReportTypeOutput data

/-- Go `(*osxDevice).startReadThread`: `make(chan []byte, 30)` and the `go`
statement. The body of the goroutine is `readThreadRun` and `readThreadExit`. -/
def osxDevice.startReadThread (w : World) (p : Nat) : Except Fault World :=
  match mapGet w.heap p with
  | none => Except.error Fault.nilDereference
  | some dev =>
    Except.ok
      { w with
          heap := mapSet w.heap p { dev with readCh := some ⟨w.next + 1, 30, [], false⟩ }
          next := w.next + 1
          trace := w.trace ++ [Event.goReadThread p] }

/-- The goroutine of `startReadThread` up to and including the call of
`CFRunLoopRun`. -/
def readThreadRun (N : Native) (w : World) (p : Nat) : Except Fault World :=
  match mapGet w.heap p with
  | none => Except.error Fault.nilDereference
  | some dev =>
    Except.ok
      { w with
          heap := mapSet w.heap p { dev with runLoop := N.runLoopGetCurrent p }
          trace := w.trace ++
            [Event.IOHIDDeviceScheduleWithRunLoop dev.osDevice (N.runLoopGetCurrent p),
             Event.IOHIDDeviceRegisterInputReportCallback dev.osDevice dev.readBuf dev.readBufLen
               true dev.osDevice,
             Event.CFRunLoopRun] }

/-- The goroutine of `startReadThread` after `CFRunLoopRun` has returned:
`close(dev.readCh)`. -/
def readThreadExit (w : World) (p : Nat) : Except Fault World :=
  match mapGet w.heap p with
  | none => Except.error Fault.nilDereference
  | some dev =>
    match dev.readCh with
    | none => Except.error Fault.nilDereference
    | some ch =>
      if ch.closed then Except.error Fault.sendOnClosedChannel
      else Except.ok
        { w with
            heap := mapSet w.heap p { dev with readCh := some { ch with closed := true } } }

/-- Go `(*osxDevice).ReadCh`: `sync.Once.Do` runs `startReadThread` when the
done flag is unset and sets the flag afterwards; the result is the channel
reference `dev.readCh` (`none` for `nil`). -/
def osxDevice.ReadCh (w : World) (p : Nat) : Except Fault (World × Option Nat) :=
  match mapGet w.heap p with
  | none => Except.error Fault.nilDereference
  | some dev =>
    if dev.readSetup then Except.ok (w, dev.readCh.map Chan.id)
    else
      match osxDevice.startReadThread w p with
      | Except.error e => Except.error e
      | Except.ok w1 =>
        match mapGet w1.heap p with
        | none => Except.error Fault.nilDereference
        | some dev1 =>
          Except.ok ({ w1 with heap := mapSet w1.heap p { dev1 with readSetup := true } },
            dev1.readCh.map Chan.id)

/-- Go `reportCallback`, `report` being the bytes copied by `C.GoBytes`. The
`select` with a `default` branch sends when the buffer has room and does
nothing otherwise (no receiver is waiting); a `nil` channel is never ready,
and a closed one panics. -/
def reportCallback (w : World) (context : Nat) (report : List Nat) : Except Fault World :=
  match mapGet w.deviceCtx context with
  | none => Except.error Fault.nilDereference
  | some p =>
    match mapGet w.heap p with
    | none => Except.error Fault.nilDereference
    | some dev =>
      match dev.readCh with
      | none => Except.ok w
      | some ch =>
        if ch.closed then Except.error Fault.sendOnClosedChannel
        else if ch.buf.length < ch.cap then
          Except.ok
            { w with
                heap := mapSet w.heap p
                  { dev with readCh := some { ch with buf := ch.buf ++ [report] } } }
        else Except.ok w

/-- A sequence of calls of `reportCallback` for the same device, with no
receive on the channel in between. -/
def reportCallbacks (w : World) (context : Nat) : List (List Nat) → Except Fault World
  | [] => Except.ok w
  | r :: rs =>
    match reportCallback w context r with
    | Except.error e => Except.error e
    | Except.ok w1 => reportCallbacks w1 context rs

/-- The result of `k` successive calls of `ReadCh`: the final world and the
channel references returned, in call order. -/
def readChTimes (w : World) (p : Nat) : Nat → Except Fault (World × List (Option Nat))
  | 0 => Except.ok (w, [])
  | k + 1 =>
    match osxDevice.ReadCh w p with
    | Except.error e => Except.error e
    | Except.ok (w1, c) =>
      match readChTimes w1 p k with
      | Except.error e => Except.error e
      | Except.ok (w2, cs) => Except.ok (w2, c :: cs)

/-! ## Sample inputs -/

/-- A host with two attached devices, references `7` and `9`. -/
def sampleNative : Native where
  K := iokitCodes
  getProperty := fun device key =>
    match key with
    | PropKey.kIOHIDTransportKey => some (CFValue.string "usb")
    | PropKey.kIOHIDVendorIDKey => some (CFValue.number (if device = 7 then 0x5ac else 0x46d))
    | PropKey.kIOHIDProductIDKey => some (CFValue.number (if device = 7 then 0x8600 else 0xc52b))
    | PropKey.kIOHIDLocationIDKey =>
      some (CFValue.number (if device = 7 then 0x14200000 else 0x14100000))
    | PropKey.kIOHIDMaxInputReportSizeKey => some (CFValue.number 64)
    | _ => none
  foreignString := fun _ => ""
  managerCreate := 100
  copyDevices := [7, 9]
  deviceOpen := fun _ => 0
  malloc := fun _ => 200
  setReport := fun _ _ _ _ => 0
  runLoopGetCurrent := fun _ => 300

/-- A host with no attached device. -/
def emptyNative : Native := { sampleNative with copyDevices := [] }

/-- The initial world: no session, empty registry. -/
def World.init : World := ⟨[], [], 0, []⟩

/-- The steps of `Close` that act on the native resources of the device: the
two callback registrations, the unscheduling and stop of the run loop, the
release of the read buffer and the close of the device. -/
def Event.isNativeResourceStep : Event → Bool
  | Event.IOHIDDeviceRegisterInputReportCallback _ _ _ _ _ => true
  | Event.IOHIDDeviceUnscheduleFromRunLoop _ _ => true
  | Event.CFRunLoopStop _ => true
  | Event.free _ => true
  | Event.IOHIDDeviceRegisterRemovalCallback _ _ => true
  | Event.IOHIDDeviceClose _ => true
  | _ => false

/-- The session that `Open` creates for device `7` of the sample host. -/
def sampleDevice : osxDevice where
  osDevice := 7
  disconnected := false
  closeDM := some ⟨100⟩
  readSetup := false
  readCh := none
  readBufLen := 64
  readBuf := 200
  runLoop := 0

/-- The world after `Open` of device `7` of the sample host in the initial
world (see `sampleWorld_from_Open`). -/
def sampleWorld : World where
  heap := [(1, sampleDevice)]
  deviceCtx := [(7, 1)]
  next := 1
  trace :=
    [Event.IOHIDDeviceOpen 7, Event.CFRetain 7, Event.registryInsert 7 1,
     Event.IOHIDDeviceRegisterRemovalCallback 7 true, Event.malloc 64 200]

/-- The sample world after the first call of `ReadCh` on its session (see
`sampleReading_from_ReadCh`). -/
def sampleReading : World where
  heap := [(1, { sampleDevice with readSetup := true, readCh := some ⟨2, 30, [], false⟩ })]
  deviceCtx := [(7, 1)]
  next := 2
  trace := sampleWorld.trace ++ [Event.goReadThread 1]

/-! ## Lemmas on maps -/

theorem mapGet_mapDelete_self {α : Type} (m : List (Nat × α)) (k : Nat) :
    mapGet (mapDelete m k) k = none := by
  induction m with
  | nil => rfl
  | cons e rest ih =>
    obtain ⟨k1, v⟩ := e
    by_cases h : k1 = k
    · simpa [mapDelete, h] using ih
    · simpa [mapDelete, h, mapGet] using ih

theorem mapGet_mapDelete_ne {α : Type} (m : List (Nat × α)) (k j : Nat) (hne : j ≠ k) :
    mapGet (mapDelete m k) j = mapGet m j := by
  induction m with
  | nil => rfl
  | cons e rest ih =>
    obtain ⟨k1, v⟩ := e
    by_cases h : k1 = k
    · subst h
      have hj : ¬ k1 = j := fun hj => hne hj.symm
      simpa [mapDelete, mapGet, hj] using ih
    · by_cases hj : k1 = j
      · subst hj
        simp [mapDelete, h, mapGet]
      · simpa [mapDelete, h, mapGet, hj] using ih

theorem mapGet_mapSet_self {α : Type} (m : List (Nat × α)) (k : Nat) (v : α) :
    mapGet (mapSet m k v) k = some v := by
  simp [mapSet, mapGet]

theorem mapGet_mapSet_ne {α : Type} (m : List (Nat × α)) (k j : Nat) (v : α) (hne : j ≠ k) :
    mapGet (mapSet m k v) j = mapGet m j := by
  have h : ¬ k = j := fun h => hne h.symm
  simp [mapSet, mapGet, h, mapGet_mapDelete_ne m k j hne]

theorem mapDelete_mapDelete {α : Type} (m : List (Nat × α)) (k : Nat) :
    mapDelete (mapDelete m k) k = mapDelete m k := by
  simp [mapDelete, List.filter_filter]

theorem mapSet_mapSet {α : Type} (m : List (Nat × α)) (k : Nat) (v v1 : α) :
    mapSet (mapSet m k v) k v1 = mapSet m k v1 := by
  simp [mapSet, mapDelete, List.filter_filter]

/-! ## Status codes -/

theorem switchFind_some (K : IOReturnName → Int) (ret : Int)
    (cases : List (IOReturnName × Option String)) (r : Option String)
    (h : switchFind K ret cases = some r) : ∃ c, (c, r) ∈ cases ∧ ret = K c := by
  induction cases with
  | nil => simp [switchFind] at h
  | cons e rest ih =>
    obtain ⟨c, r1⟩ := e
    by_cases hc : ret = K c
    · simp only [switchFind, hc, if_true, Option.some.injEq] at h
      exact ⟨c, by simp [h], hc⟩
    · simp only [switchFind, hc, if_false] at h
      obtain ⟨c1, hmem, hret⟩ := ih h
      exact ⟨c1, List.mem_cons_of_mem _ hmem, hret⟩

theorem switchFind_none (K : IOReturnName → Int) (ret : Int)
    (cases : List (IOReturnName × Option String)) (h : ∀ c, K c ≠ ret) :
    switchFind K ret cases = none := by
  induction cases with
  | nil => rfl
  | cons e rest ih =>
    obtain ⟨c, r1⟩ := e
    have hc : ¬ ret = K c := fun hc => h c hc.symm
    simpa [switchFind, hc] using ih

theorem switchFind_isSome (K : IOReturnName → Int) (c : IOReturnName)
    (cases : List (IOReturnName × Option String)) (r : Option String) (h : (c, r) ∈ cases) :
    ∃ r1, switchFind K (K c) cases = some r1 := by
  induction cases with
  | nil => simp at h
  | cons e rest ih =>
    obtain ⟨c1, r1⟩ := e
    by_cases hc : K c = K c1
    · exact ⟨r1, by simp [switchFind, hc]⟩
    · have hmem : (c, r) ∈ rest := by
        rcases List.mem_cons.mp h with h1 | h1
        · exact absurd (by rw [(Prod.mk.inj h1).1]) hc
        · exact h1
      obtain ⟨r2, h2⟩ := ih hmem
      exact ⟨r2, by simpa [switchFind, hc] using h2⟩

theorem ioReturnCases_complete (c : IOReturnName) : ∃ r, (c, r) ∈ ioReturnCases := by
  have h : c ∈ ioReturnCases.map Prod.fst := by cases c <;> decide
  obtain ⟨e, he, hc⟩ := List.mem_map.mp h
  exact ⟨e.2, by rw [← hc]; exact he⟩

theorem ioReturnCases_nil_result :
    ∀ e ∈ ioReturnCases, e.2 = none → e.1 = IOReturnName.kIOReturnSuccess := by
  decide

theorem ioReturnCases_not_generic :
    ∀ e ∈ ioReturnCases, e.2 ≠ some "Unknown error" := by
  decide

/-- C7. `ioReturnToErr` is a total function of the status (for any values of
the `IOReturn` constants): it returns `nil` exactly for the success code; every
listed status other than success gives an error whose message is not "Unknown
error"; every status that is not listed gives the error "Unknown error". -/
theorem ioReturnToErr_translation (K : IOReturnName → Int) :
    (∀ ret, ioReturnToErr K ret = none ↔ ret = K IOReturnName.kIOReturnSuccess) ∧
    (∀ c, K c ≠ K IOReturnName.kIOReturnSuccess →
      ∃ msg, ioReturnToErr K (K c) = some msg ∧ msg ≠ "Unknown error") ∧
    (∀ ret, (∀ c, K c ≠ ret) → ioReturnToErr K ret = some "Unknown error") := by
  refine ⟨fun ret => ⟨fun h => ?_, fun h => ?_⟩, fun c hc => ?_, fun ret h => ?_⟩
  · unfold ioReturnToErr at h
    cases hs : switchFind K ret ioReturnCases with
    | none => simp [hs] at h
    | some r =>
      simp only [hs] at h
      obtain ⟨c, hmem, hret⟩ := switchFind_some K ret _ r hs
      have hc0 : c = IOReturnName.kIOReturnSuccess := ioReturnCases_nil_result (c, r) hmem h
      rw [hret, hc0]
  · subst h
    simp [ioReturnToErr, ioReturnCases, switchFind]
  · obtain ⟨r, hmem⟩ := ioReturnCases_complete c
    obtain ⟨r1, hs⟩ := switchFind_isSome K c _ r hmem
    obtain ⟨c1, hmem1, hret⟩ := switchFind_some K (K c) _ r1 hs
    cases r1 with
    | none =>
      have hc0 : c1 = IOReturnName.kIOReturnSuccess :=
        ioReturnCases_nil_result (c1, none) hmem1 rfl
      exact absurd (by rw [hret, hc0]) hc
    | some msg =>
      refine ⟨msg, by simp [ioReturnToErr, hs], fun hmsg => ?_⟩
      exact ioReturnCases_not_generic (c1, some msg) hmem1 (by simp [hmsg])
  · simp [ioReturnToErr, switchFind_none K ret _ h]

/-- Witness for C7 on the IOKit values: `kIOReturnExclusiveAccess` differs from
the success code and maps to a specific message, and the unlisted status `17`
maps to "Unknown error". -/
theorem ioReturnToErr_translation_witness :
    (∃ msg, ioReturnToErr iokitCodes (iokitCodes IOReturnName.kIOReturnExclusiveAccess) = some msg ∧
      msg ≠ "Unknown error") ∧
    ioReturnToErr iokitCodes 17 = some "Unknown error" :=
  ⟨(ioReturnToErr_translation iokitCodes).2.1 IOReturnName.kIOReturnExclusiveAccess (by decide),
   (ioReturnToErr_translation iokitCodes).2.2 17 (by intro c; cases c <;> decide)⟩

/-! ## The identity path -/

theorem toDigitsCore_append (fuel : Nat) :
    ∀ (n : Nat) (ds : List Char),
      Nat.toDigitsCore 16 fuel n ds = Nat.toDigitsCore 16 fuel n [] ++ ds := by
  induction fuel with
  | zero => intro n ds; simp [Nat.toDigitsCore]
  | succ fuel ih =>
    intro n ds
    simp only [Nat.toDigitsCore]
    by_cases h : n / 16 = 0
    · simp [h]
    · simp only [h, if_false]
      rw [ih (n / 16) (Nat.digitChar (n % 16) :: ds), ih (n / 16) [Nat.digitChar (n % 16)]]
      simp

theorem hexValue_append_singleton (l : List Char) (c : Char) :
    hexValue (l ++ [c]) = 16 * hexValue l + hexValue [c] := by
  simp [hexValue, List.foldl_append]

theorem hexValue_digitChar : ∀ d, d < 16 → hexValue [Nat.digitChar d] = d := by decide

theorem isLowerHex_digitChar : ∀ d, d < 16 → isLowerHex (Nat.digitChar d) = true := by decide

theorem hexValue_toDigitsCore (fuel : Nat) :
    ∀ n, n < fuel → hexValue (Nat.toDigitsCore 16 fuel n []) = n := by
  induction fuel with
  | zero => intro n h; omega
  | succ fuel ih =>
    intro n hn
    simp only [Nat.toDigitsCore]
    have hmod : n % 16 < 16 := Nat.mod_lt _ (by decide)
    by_cases h : n / 16 = 0
    · simp only [h, if_true]
      rw [hexValue_digitChar _ hmod]
      omega
    · simp only [h, if_false]
      rw [toDigitsCore_append, hexValue_append_singleton, ih (n / 16) (by omega),
        hexValue_digitChar _ hmod]
      omega

theorem isLowerHex_toDigitsCore (fuel : Nat) :
    ∀ n, ∀ c ∈ Nat.toDigitsCore 16 fuel n [], isLowerHex c = true := by
  induction fuel with
  | zero => intro n c hc; simp [Nat.toDigitsCore] at hc
  | succ fuel ih =>
    intro n c hc
    simp only [Nat.toDigitsCore] at hc
    have hmod : n % 16 < 16 := Nat.mod_lt _ (by decide)
    by_cases h : n / 16 = 0
    · simp only [h, if_true, List.mem_singleton] at hc
      rw [hc]; exact isLowerHex_digitChar _ hmod
    · simp only [h, if_false] at hc
      rw [toDigitsCore_append] at hc
      rcases List.mem_append.mp hc with h1 | h1
      · exact ih _ c h1
      · rw [List.mem_singleton.mp h1]; exact isLowerHex_digitChar _ hmod

theorem hexValue_zeros (k : Nat) (l : List Char) :
    hexValue (List.replicate k '0' ++ l) = hexValue l := by
  induction k with
  | zero => simp
  | succ k ih =>
    rw [List.replicate_succ, List.cons_append]
    have hstep : 16 * 0 + (if ('0' : Char).isDigit then ('0' : Char).toNat - 48
        else ('0' : Char).toNat - 87) = 0 := by decide
    have : hexValue ('0' :: (List.replicate k '0' ++ l)) =
        hexValue (List.replicate k '0' ++ l) := by
      simp only [hexValue, List.foldl_cons, hstep]
    rw [this, ih]

theorem toDigits_length_le (w n : Nat) (hw : 0 < w) (hn : n < 16 ^ w) :
    (Nat.toDigits 16 n).length ≤ w :=
  Nat.toDigitsCore_length 16 (by decide) (n + 1) n w hn hw

theorem fmtHex_length (w n : Nat) (hw : 0 < w) (hn : n < 16 ^ w) : (fmtHex w n).length = w := by
  have h := toDigits_length_le w n hw hn
  simp only [fmtHex, String.length, List.length_append, List.length_replicate]
  omega

theorem fmtHex_value (w n : Nat) : hexValue (fmtHex w n).data = n := by
  simp only [fmtHex, hexValue_zeros]
  exact hexValue_toDigitsCore (n + 1) n (Nat.lt_succ_self n)

theorem fmtHex_lowerHex (w n : Nat) : ∀ c ∈ (fmtHex w n).data, isLowerHex c = true := by
  intro c hc
  simp only [fmtHex] at hc
  rcases List.mem_append.mp hc with h | h
  · rw [(List.mem_replicate.mp h).2]; decide
  · exact isLowerHex_toDigitsCore (n + 1) n c h

theorem uint16_lt (x : Int) : uint16 x < 16 ^ 4 := by
  unfold uint16
  have h1 : (0 : Int) ≤ x % 2 ^ 16 := Int.emod_nonneg _ (by norm_num)
  have h2 : x % 2 ^ 16 < 2 ^ 16 := Int.emod_lt_of_pos _ (by norm_num)
  omega

theorem uint32_lt (x : Int) : uint32 x < 16 ^ 8 := by
  unfold uint32
  have h1 : (0 : Int) ≤ x % 2 ^ 32 := Int.emod_nonneg _ (by norm_num)
  have h2 : x % 2 ^ 32 < 2 ^ 32 := Int.emod_lt_of_pos _ (by norm_num)
  omega

/-- The four properties `getPath` reads. -/
theorem getPath_congr (N : Native) (d e : Nat)
    (h : ∀ key ∈ [PropKey.kIOHIDTransportKey, PropKey.kIOHIDVendorIDKey,
      PropKey.kIOHIDProductIDKey, PropKey.kIOHIDLocationIDKey],
      N.getProperty d key = N.getProperty e key) : getPath N d = getPath N e := by
  have h1 := h PropKey.kIOHIDTransportKey (by simp)
  have h2 := h PropKey.kIOHIDVendorIDKey (by simp)
  have h3 := h PropKey.kIOHIDProductIDKey (by simp)
  have h4 := h PropKey.kIOHIDLocationIDKey (by simp)
  simp only [getPath, getStringProp, getIntProp, h1, h2, h3, h4]

/-- C10 (amended). `getPath` is the transport string followed by a suffix
`_vvvv_pppp_llllllll`: `v` and `p` are exactly 4 and `l` exactly 8 lowercase
hexadecimal digits whose values are the vendor id and the product id reduced
mod 2^16 and the location id reduced mod 2^32; the suffix has length 19. An
absent or non-numeric integer property counts as 0 and an absent transport as
the empty string, and two handles that agree on the four properties get the
same path. -/
theorem getPath_format (N : Native) (d e : Nat) :
    (∃ v p l : String,
      getPath N d =
        getStringProp N d PropKey.kIOHIDTransportKey ++ ("_" ++ v ++ "_" ++ p ++ "_" ++ l) ∧
      v.length = 4 ∧ p.length = 4 ∧ l.length = 8 ∧
      (∀ c ∈ v.data ++ p.data ++ l.data, isLowerHex c = true) ∧
      (hexValue v.data : Int) = getIntProp N d PropKey.kIOHIDVendorIDKey % 2 ^ 16 ∧
      (hexValue p.data : Int) = getIntProp N d PropKey.kIOHIDProductIDKey % 2 ^ 16 ∧
      (hexValue l.data : Int) = getIntProp N d PropKey.kIOHIDLocationIDKey % 2 ^ 32 ∧
      ("_" ++ v ++ "_" ++ p ++ "_" ++ l).length = 19) ∧
    (∀ key, (∀ v, N.getProperty d key ≠ some (CFValue.number v)) → getIntProp N d key = 0) ∧
    (N.getProperty d PropKey.kIOHIDTransportKey = none →
      getStringProp N d PropKey.kIOHIDTransportKey = "") ∧
    ((∀ key ∈ [PropKey.kIOHIDTransportKey, PropKey.kIOHIDVendorIDKey,
        PropKey.kIOHIDProductIDKey, PropKey.kIOHIDLocationIDKey],
        N.getProperty d key = N.getProperty e key) → getPath N d = getPath N e) := by
  refine ⟨⟨fmtHex 4 (uint16 (getIntProp N d PropKey.kIOHIDVendorIDKey)),
    fmtHex 4 (uint16 (getIntProp N d PropKey.kIOHIDProductIDKey)),
    fmtHex 8 (uint32 (getIntProp N d PropKey.kIOHIDLocationIDKey)), ?_, ?_, ?_, ?_, ?_, ?_, ?_, ?_, ?_⟩,
    ?_, ?_, getPath_congr N d e⟩
  · simp only [getPath, String.append_assoc]
  · exact fmtHex_length 4 _ (by decide) (uint16_lt _)
  · exact fmtHex_length 4 _ (by decide) (uint16_lt _)
  · exact fmtHex_length 8 _ (by decide) (uint32_lt _)
  · intro c hc
    rcases List.mem_append.mp hc with h | h
    · rcases List.mem_append.mp h with h | h
      · exact fmtHex_lowerHex _ _ c h
      · exact fmtHex_lowerHex _ _ c h
    · exact fmtHex_lowerHex _ _ c h
  · rw [fmtHex_value, uint16]
    exact Int.toNat_of_nonneg (Int.emod_nonneg _ (by norm_num))
  · rw [fmtHex_value, uint16]
    exact Int.toNat_of_nonneg (Int.emod_nonneg _ (by norm_num))
  · rw [fmtHex_value, uint32]
    exact Int.toNat_of_nonneg (Int.emod_nonneg _ (by norm_num))
  · simp only [String.length_append, fmtHex_length 4 _ (by decide) (uint16_lt _),
      fmtHex_length 8 _ (by decide) (uint32_lt _)]
    decide
  · intro key hkey
    unfold getIntProp
    split
    · rename_i v hv
      exact absurd hv (hkey v)
    · rfl
  · intro h
    simp [getStringProp, gostring, h]

/-- Witness for C10 (amended): on the sample host the path of device `7` is as
described, its absent version number reads as 0, and the handle agrees with
itself on the four properties. -/
theorem getPath_format_witness :
    getPath sampleNative 7 = "usb" ++ "_05ac_8600_14200000" ∧
    getIntProp sampleNative 7 PropKey.kIOHIDVersionNumberKey = 0 ∧
    getPath sampleNative 7 = getPath sampleNative 7 :=
  ⟨by decide,
   (getPath_format sampleNative 7 7).2.1 PropKey.kIOHIDVersionNumberKey (by intro v; simp [sampleNative]),
   (getPath_format sampleNative 7 7).2.2.2 (fun _ _ => rfl)⟩

/-- C10 as stated fails: the path of the sample device `7` is its transport
"usb" followed by 19 characters, so no suffix of length 20 follows the
transport. -/
theorem getPath_suffix_length_not_20 :
    ¬ ∃ suffix : String,
      getPath sampleNative 7 =
        getStringProp sampleNative 7 PropKey.kIOHIDTransportKey ++ suffix ∧
      suffix.length = 20 := by
  rintro ⟨suffix, h1, h2⟩
  have h3 := congrArg String.length h1
  rw [String.length_append, h2] at h3
  revert h3
  decide

/-! ## Enumeration and lookup -/

theorem iterateLoop_append (N : Native) (ds : List Nat) :
    ∀ acc : List DeviceInfo,
      iterateLoop (fun result device => (result ++ [deviceInfoOf N device], true)) ds acc =
        acc ++ ds.map (deviceInfoOf N) := by
  induction ds with
  | nil => intro acc; simp [iterateLoop]
  | cons d ds ih => intro acc; simp [iterateLoop, ih]

theorem Devices_of_nil (N : Native) (h : N.copyDevices = []) :
    Devices N = Except.error Fault.indexOutOfRange := by
  simp [Devices, iterateDevices, h]

theorem Devices_of_ne_nil (N : Native) (h : N.copyDevices ≠ []) :
    Devices N = Except.ok (N.copyDevices.map (deviceInfoOf N), none) := by
  unfold Devices iterateDevices
  cases hd : N.copyDevices with
  | nil => exact absurd hd h
  | cons d ds => simp [iterateLoop_append]

theorem Devices_error_nil (N : Native) (devices : List DeviceInfo) (err : Option String)
    (h : Devices N = Except.ok (devices, err)) : err = none := by
  by_cases hd : N.copyDevices = []
  · rw [Devices_of_nil N hd] at h; cases h
  · rw [Devices_of_ne_nil N hd] at h
    injection h with h
    exact (Prod.mk.inj h).2.symm

/-- C8, at the failing input: on a host with no attached device `Devices`
panics with an index out of range (`&allDevices[0]` on an empty slice) instead
of returning the empty sequence with a nil error. -/
theorem Devices_empty_snapshot_panics :
    emptyNative.copyDevices = [] ∧ Devices emptyNative = Except.error Fault.indexOutOfRange :=
  ⟨rfl, rfl⟩

theorem byPathScan_first (path : String) (pre post : List DeviceInfo) (d : DeviceInfo)
    (hd : d.Path = path) (hpre : ∀ x ∈ pre, x.Path ≠ path) :
    byPathScan path (pre ++ d :: post) = (some d, none) := by
  induction pre with
  | nil => simp [byPathScan, hd]
  | cons x xs ih =>
    have hx : ¬ x.Path = path := hpre x (List.mem_cons_self _ _)
    simpa [byPathScan, hx] using ih (fun y hy => hpre y (List.mem_cons_of_mem _ hy))

theorem byPathScan_not_found (path : String) (devices : List DeviceInfo) :
    byPathScan path devices = (none, some "Device not found") ↔
      ∀ d ∈ devices, d.Path ≠ path := by
  induction devices with
  | nil => simp [byPathScan]
  | cons x xs ih =>
    by_cases hx : x.Path = path
    · simp [byPathScan, hx]
    · simp [byPathScan, hx, ih]

/-- The scan of `ByPath` on a host where the enumeration succeeds: whenever
`Devices` returns the list `devices`, `ByPath path` returns; if some device of
the list has the path `path` exactly, the result is the first such device, in
enumeration order, with a nil error; and the result is no device with the
error "Device not found" if and only if no device of the list has that path. -/
theorem ByPath_first_match (N : Native) (path : String) (devices : List DeviceInfo)
    (err : Option String) (h : Devices N = Except.ok (devices, err)) :
    ∃ r, ByPath N path = Except.ok r ∧
      (∀ pre d post, devices = pre ++ d :: post → d.Path = path →
        (∀ x ∈ pre, x.Path ≠ path) → r = (some d, none)) ∧
      (r = (none, some "Device not found") ↔ ∀ d ∈ devices, d.Path ≠ path) := by
  have herr := Devices_error_nil N devices err h
  subst herr
  refine ⟨byPathScan path devices, by simp [ByPath, h], ?_, byPathScan_not_found path devices⟩
  intro pre d post hdev hd hpre
  rw [hdev]
  exact byPathScan_first path pre post d hd hpre

/-- The scan of `ByPath` on the sample host, which enumerates two devices,
none of which has the path "usb_ffff_ffff_00000000". -/
theorem ByPath_first_match_witness :
    Devices sampleNative =
      Except.ok ([deviceInfoOf sampleNative 7, deviceInfoOf sampleNative 9], none) ∧
    ∃ r, ByPath sampleNative "usb_ffff_ffff_00000000" = Except.ok r ∧
      (∀ pre d post, [deviceInfoOf sampleNative 7, deviceInfoOf sampleNative 9] = pre ++ d :: post →
        d.Path = "usb_ffff_ffff_00000000" →
        (∀ x ∈ pre, x.Path ≠ "usb_ffff_ffff_00000000") → r = (some d, none)) ∧
      (r = (none, some "Device not found") ↔
        ∀ d ∈ [deviceInfoOf sampleNative 7, deviceInfoOf sampleNative 9],
          d.Path ≠ "usb_ffff_ffff_00000000") :=
  ⟨rfl, ByPath_first_match sampleNative "usb_ffff_ffff_00000000" _ none rfl⟩

/-- C9, at the failing input: on a host with no attached device no enumerated
device has the path "usb_ffff_ffff_00000000", yet `ByPath` does not return the
error "Device not found": it panics with an index out of range, because
`Devices` panics on `&allDevices[0]` (the defect of C8). -/
theorem ByPath_empty_snapshot_panics :
    emptyNative.copyDevices = [] ∧
    (∀ d ∈ emptyNative.copyDevices.map (deviceInfoOf emptyNative),
      d.Path ≠ "usb_ffff_ffff_00000000") ∧
    ByPath emptyNative "usb_ffff_ffff_00000000" = Except.error Fault.indexOutOfRange ∧
    ByPath emptyNative "usb_ffff_ffff_00000000" ≠
      Except.ok (none, some "Device not found") := by
  refine ⟨rfl, ?_, rfl, ?_⟩
  · intro d hd
    simp [emptyNative] at hd
  · intro h
    have h1 : ByPath emptyNative "usb_ffff_ffff_00000000" =
        Except.error Fault.indexOutOfRange := rfl
    rw [h1] at h
    cases h

/-! ## Open -/

theorem iterateLoop_openAction (N : Native) (di : DeviceInfo) (ds : List Nat) :
    ∀ s : OpenVars, s.dev = 0 → (iterateLoop (openAction N di) ds s).dev ≠ 0 →
      ∃ device, device ∈ ds ∧
        (iterateLoop (openAction N di) ds s).err = none ∧
        (iterateLoop (openAction N di) ds s).dev = s.w.next + 1 ∧
        (iterateLoop (openAction N di) ds s).w =
          { heap := mapSet s.w.heap (s.w.next + 1)
              { osDevice := device, disconnected := false, closeDM := none, readSetup := false,
                readCh := none, readBufLen := 0, readBuf := 0, runLoop := 0 }
            deviceCtx := mapSet s.w.deviceCtx device (s.w.next + 1)
            next := s.w.next + 1
            trace := s.w.trace ++
              [Event.IOHIDDeviceOpen device, Event.CFRetain device,
               Event.registryInsert device (s.w.next + 1),
               Event.IOHIDDeviceRegisterRemovalCallback device true] } := by
  induction ds with
  | nil => intro s h0 h1; exact absurd h0 h1
  | cons d ds ih =>
    intro s h0 h1
    by_cases hpath : getPath N d = di.Path
    · by_cases hopen : N.deviceOpen d = N.K IOReturnName.kIOReturnSuccess
      · exact ⟨d, List.mem_cons_self _ _, by simp [iterateLoop, openAction, hpath, hopen]⟩
      · simp [iterateLoop, openAction, hpath, hopen, h0] at h1
    · have hstep : iterateLoop (openAction N di) (d :: ds) s = iterateLoop (openAction N di) ds s := by
        simp [iterateLoop, openAction, hpath]
      rw [hstep] at h1 ⊢
      obtain ⟨device, hmem, hrest⟩ := ih s h0 h1
      exact ⟨device, List.mem_cons_of_mem _ hmem, hrest⟩

/-- The state after a successful `Open`: the session is a fresh object,
registered under the handle of an attached device, not disconnected, with a
teardown hook, no channel and an unfired `sync.Once`. -/
theorem Open_spec (N : Native) (w : World) (di : DeviceInfo) (w1 : World) (p : Nat)
    (err : Option String) (h : DeviceInfo.Open N w di = Except.ok (w1, p, err)) (hp : p ≠ 0) :
    err = none ∧ ∃ device, device ∈ N.copyDevices ∧
      w1.deviceCtx = mapSet w.deviceCtx device p ∧
      mapGet w1.heap p = some
        { osDevice := device, disconnected := false, closeDM := some ⟨N.managerCreate⟩,
          readSetup := false, readCh := none, readBufLen := di.InputReportLength,
          readBuf := N.malloc di.InputReportLength, runLoop := 0 } ∧
      w1.trace = w.trace ++
        [Event.IOHIDDeviceOpen device, Event.CFRetain device, Event.registryInsert device p,
         Event.IOHIDDeviceRegisterRemovalCallback device true,
         Event.malloc di.InputReportLength (N.malloc di.InputReportLength)] := by
  unfold DeviceInfo.Open iterateDevices at h
  cases hds : N.copyDevices with
  | nil => simp [hds] at h
  | cons d ds =>
    simp only [hds] at h
    by_cases hdev : (iterateLoop (openAction N di) (d :: ds) ⟨some "device not found", 0, w⟩).dev = 0
    · simp only [hdev, ne_eq, not_true_eq_false, if_false, Except.ok.injEq, Prod.mk.injEq] at h
      exact absurd h.2.1.symm hp
    · obtain ⟨device, hmem, herr, hd, hw⟩ :=
        iterateLoop_openAction N di (d :: ds) ⟨some "device not found", 0, w⟩ rfl hdev
      simp only [hd, hw, herr, ne_eq, Nat.succ_ne_zero, not_false_eq_true, if_true,
        mapGet_mapSet_self, Except.ok.injEq, Prod.mk.injEq] at h
      obtain ⟨hw1, hp1, herr1⟩ := h
      subst hw1 hp1 herr1
      exact ⟨rfl, device, hmem, rfl, by simp [mapGet_mapSet_self, mapSet_mapSet], by simp⟩

/-! ## Close -/

theorem closeSteps_dev (dev : osxDevice) (reg : List (Nat × Nat)) (tr : List Event) :
    (closeManager (closeRelease (closeDevice (closeReadLoop ⟨dev, reg, tr⟩)))).dev =
      { dev with disconnected := true, osDevice := 0, closeDM := none } := by
  obtain ⟨osDevice, disconnected, closeDM, readSetup, readCh, readBufLen, readBuf, runLoop⟩ := dev
  cases disconnected <;> cases closeDM <;> cases readCh <;> by_cases h : osDevice = 0 <;>
    simp [closeManager, closeRelease, closeDevice, closeReadLoop, h]

theorem closeSteps_deviceCtx (dev : osxDevice) (reg : List (Nat × Nat)) (tr : List Event) :
    (closeManager (closeRelease (closeDevice (closeReadLoop ⟨dev, reg, tr⟩)))).deviceCtx =
      if dev.osDevice ≠ 0 then mapDelete reg 0 else reg := by
  obtain ⟨osDevice, disconnected, closeDM, readSetup, readCh, readBufLen, readBuf, runLoop⟩ := dev
  cases disconnected <;> cases closeDM <;> cases readCh <;> by_cases h : osDevice = 0 <;>
    simp [closeManager, closeRelease, closeDevice, closeReadLoop, h]

theorem closeSteps_closed (dev : osxDevice) (reg : List (Nat × Nat)) (tr : List Event)
    (h1 : dev.disconnected = true) (h2 : dev.osDevice = 0) (h3 : dev.closeDM = none) :
    closeManager (closeRelease (closeDevice (closeReadLoop ⟨dev, reg, tr⟩))) = ⟨dev, reg, tr⟩ := by
  simp [closeManager, closeRelease, closeDevice, closeReadLoop, h1, h2, h3]

theorem closeSteps_disconnected_trace (dev : osxDevice) (reg : List (Nat × Nat))
    (tr : List Event) (h1 : dev.disconnected = true) (h2 : dev.osDevice ≠ 0) :
    (closeManager (closeRelease (closeDevice (closeReadLoop ⟨dev, reg, tr⟩)))).trace =
      tr ++ [Event.CFRelease dev.osDevice, Event.registryDelete 0] ++
        (match dev.closeDM with
          | some f => f.run
          | none => []) := by
  obtain ⟨osDevice, disconnected, closeDM, readSetup, readCh, readBufLen, readBuf, runLoop⟩ := dev
  simp only at h1 h2
  subst h1
  cases closeDM <;> simp [closeManager, closeRelease, closeDevice, closeReadLoop, h2]

theorem Close_of_heap (w : World) (p : Nat) (dev : osxDevice) (h : mapGet w.heap p = some dev) :
    osxDevice.Close w p = Except.ok
      { heap := mapSet w.heap p { dev with disconnected := true, osDevice := 0, closeDM := none }
        deviceCtx := if dev.osDevice ≠ 0 then mapDelete w.deviceCtx 0 else w.deviceCtx
        next := w.next
        trace :=
          (closeManager (closeRelease (closeDevice (closeReadLoop
            ⟨dev, w.deviceCtx, w.trace⟩)))).trace } := by
  simp only [osxDevice.Close, h, closeSteps_dev, closeSteps_deviceCtx]

/-- C2. On every session state, `Close` returns, and a second `Close` returns
the very state the first one left: same session, same registry, and a trace
with no further entry, so the second call makes no native call and does not
run the teardown hook again. -/
theorem Close_idempotent (w : World) (p : Nat) (dev : osxDevice)
    (h : mapGet w.heap p = some dev) :
    ∃ w1 w2, osxDevice.Close w p = Except.ok w1 ∧ osxDevice.Close w1 p = Except.ok w2 ∧
      w2 = w1 ∧ w2.trace = w1.trace ∧
      mapGet w1.heap p = some { dev with disconnected := true, osDevice := 0, closeDM := none } := by
  have hfirst : osxDevice.Close w p = Except.ok
      { w with
          heap := mapSet w.heap p
            (closeManager (closeRelease (closeDevice (closeReadLoop ⟨dev, w.deviceCtx, w.trace⟩)))).dev
          deviceCtx :=
            (closeManager (closeRelease (closeDevice (closeReadLoop ⟨dev, w.deviceCtx, w.trace⟩)))).deviceCtx
          trace :=
            (closeManager (closeRelease (closeDevice (closeReadLoop ⟨dev, w.deviceCtx, w.trace⟩)))).trace } := by
    simp [osxDevice.Close, h]
  refine ⟨_, _, hfirst, ?_, rfl, rfl, ?_⟩
  · simp only [osxDevice.Close, mapGet_mapSet_self]
    rw [closeSteps_dev, closeSteps_closed _ _ _ rfl rfl rfl]
    simp [mapSet_mapSet]
  · simp [mapGet_mapSet_self, closeSteps_dev]

theorem sampleWorld_from_Open :
    DeviceInfo.Open sampleNative World.init (deviceInfoOf sampleNative 7) =
      Except.ok (sampleWorld, 1, none) := rfl

theorem sampleReading_from_ReadCh :
    osxDevice.ReadCh sampleWorld 1 = Except.ok (sampleReading, some 2) := rfl

/-- Witness for C2: the session of the sample world. -/
theorem Close_idempotent_witness :
    ∃ w1 w2, osxDevice.Close sampleWorld 1 = Except.ok w1 ∧
      osxDevice.Close w1 1 = Except.ok w2 ∧ w2 = w1 ∧ w2.trace = w1.trace ∧
      mapGet w1.heap 1 =
        some { sampleDevice with disconnected := true, osDevice := 0, closeDM := none } :=
  Close_idempotent sampleWorld 1 sampleDevice rfl

/-- After `Close` of a session that `Open` returned, the session is marked
disconnected, but the registry still maps the (non-nil) handle to it: the key
deleted is `nil`. -/
theorem Close_after_Open (N : Native) (w : World) (di : DeviceInfo) (w1 : World) (p : Nat)
    (err : Option String) (h : DeviceInfo.Open N w di = Except.ok (w1, p, err)) (hp : p ≠ 0) :
    ∃ device w2, device ∈ N.copyDevices ∧ mapGet w1.deviceCtx device = some p ∧
      osxDevice.Close w1 p = Except.ok w2 ∧
      (∃ dev, mapGet w2.heap p = some dev ∧ dev.disconnected = true) ∧
      (device ≠ 0 → mapGet w2.deviceCtx device = some p) := by
  obtain ⟨_, device, hmem, hreg, hheap, _⟩ := Open_spec N w di w1 p err h hp
  refine ⟨device, _, hmem, by rw [hreg, mapGet_mapSet_self], Close_of_heap w1 p _ hheap,
    ⟨_, mapGet_mapSet_self _ _ _, rfl⟩, fun hne => ?_⟩
  simp only [ne_eq, hne, not_false_eq_true, if_true]
  rw [mapGet_mapDelete_ne _ _ _ hne, hreg, mapGet_mapSet_self]

/-- C1, at the failing input: `Open` of device `7` on the sample host registers
the session under the handle `7`; after `Close` the session is disconnected
and its handle field is cleared, but the key deleted from the registry is the
cleared field (`0`, that is `nil`), and the registry still holds the entry for
`7`. -/
theorem Close_leaves_registry_entry :
    DeviceInfo.Open sampleNative World.init (deviceInfoOf sampleNative 7) =
      Except.ok (sampleWorld, 1, none) ∧
    mapGet sampleWorld.deviceCtx 7 = some 1 ∧
    ∃ w1, osxDevice.Close sampleWorld 1 = Except.ok w1 ∧
      (∃ dev, mapGet w1.heap 1 = some dev ∧ dev.disconnected = true ∧ dev.osDevice = 0) ∧
      Event.registryDelete 0 ∈ w1.trace ∧ Event.registryDelete 7 ∉ w1.trace ∧
      mapGet w1.deviceCtx 7 = some 1 :=
  ⟨rfl, rfl, _, rfl, ⟨_, rfl, rfl, rfl⟩, by decide, by decide, rfl⟩

/-! ## Removal notification -/

/-- C3 (amended). For a session registered under its non-nil handle `h`,
`deviceUnplugged h` returns with the session marked disconnected; none of the
native-resource steps of `Close` runs; the steps that run are the release of
the handle reference, the registry delete step and, when a teardown hook is
present, the teardown hook. -/
theorem deviceUnplugged_steps (w : World) (h p : Nat) (od : osxDevice)
    (hreg : mapGet w.deviceCtx h = some p) (hheap : mapGet w.heap p = some od)
    (hdev : od.osDevice = h) (hh : h ≠ 0) :
    ∃ w1 k, deviceUnplugged w h = Except.ok w1 ∧
      mapGet w1.heap p = some { od with disconnected := true, osDevice := 0, closeDM := none } ∧
      w1.trace = w.trace ++ [Event.CFRelease h, Event.registryDelete k] ++
        (match od.closeDM with
          | some f => f.run
          | none => []) ∧
      ∀ e ∈ w1.trace.drop w.trace.length, e.isNativeResourceStep = false := by
  subst hdev
  have htrace := closeSteps_disconnected_trace { od with disconnected := true } w.deviceCtx
    w.trace rfl hh
  have hstep : deviceUnplugged w od.osDevice =
      osxDevice.Close { w with heap := mapSet w.heap p { od with disconnected := true } } p := by
    simp only [deviceUnplugged, hreg, hheap]
  have hclose := Close_of_heap { w with heap := mapSet w.heap p { od with disconnected := true } }
    p { od with disconnected := true } (mapGet_mapSet_self _ _ _)
  simp only [htrace] at hclose
  rw [← hstep] at hclose
  refine ⟨_, 0, hclose, by simp [mapGet_mapSet_self], rfl, ?_⟩
  intro e he
  simp only [List.append_assoc, List.drop_left] at he
  cases hc : od.closeDM with
  | none =>
    simp only [hc, List.append_nil, List.mem_cons, List.mem_singleton, List.cons_append,
      List.nil_append, List.not_mem_nil, or_false] at he
    rcases he with he | he <;> subst he <;> rfl
  | some f =>
    simp only [hc, cleanupDeviceManagerFn.run, List.mem_cons, List.cons_append,
      List.nil_append, List.not_mem_nil, or_false] at he
    rcases he with he | he | he | he <;> subst he <;> rfl

/-- Witness for C3 (amended): the session of the sample world, registered
under the handle `7`. -/
theorem deviceUnplugged_steps_witness :
    ∃ w1 k, deviceUnplugged sampleWorld 7 = Except.ok w1 ∧
      mapGet w1.heap 1 =
        some { sampleDevice with disconnected := true, osDevice := 0, closeDM := none } ∧
      w1.trace = sampleWorld.trace ++ [Event.CFRelease 7, Event.registryDelete k] ++
        (match sampleDevice.closeDM with
          | some f => f.run
          | none => []) ∧
      ∀ e ∈ w1.trace.drop sampleWorld.trace.length, e.isNativeResourceStep = false :=
  deviceUnplugged_steps sampleWorld 7 1 sampleDevice rfl rfl rfl (by decide)

/-- C3 as stated fails: for the session that `Open` returned on the sample
host, `deviceUnplugged` also runs the teardown hook (`IOHIDManagerClose` and
`CFRelease` of the manager), so the steps that run are not only the release of
the handle reference and the registry removal. -/
theorem deviceUnplugged_runs_teardown_hook :
    DeviceInfo.Open sampleNative World.init (deviceInfoOf sampleNative 7) =
      Except.ok (sampleWorld, 1, none) ∧
    mapGet sampleWorld.deviceCtx 7 = some 1 ∧
    ∃ w1, deviceUnplugged sampleWorld 7 = Except.ok w1 ∧
      w1.trace.drop sampleWorld.trace.length =
        [Event.CFRelease 7, Event.registryDelete 0, Event.IOHIDManagerClose 100,
         Event.CFRelease 100] ∧
      ¬ ∀ e ∈ w1.trace.drop sampleWorld.trace.length,
          e = Event.CFRelease 7 ∨ ∃ k, e = Event.registryDelete k := by
  refine ⟨rfl, rfl, _, rfl, by decide, fun hall => ?_⟩
  have hmem : Event.IOHIDManagerClose 100 ∈
      [Event.CFRelease 7, Event.registryDelete 0, Event.IOHIDManagerClose 100,
        Event.CFRelease 100] := by decide
  rcases hall _ hmem with h1 | ⟨k, h1⟩ <;> cases h1

/-! ## Report framing -/

/-- Framing of `setReport` on a connected session, for every buffer that is
not the single byte `0`: the call returns, the report id handed to the backend
is the first byte, and the bytes transmitted are the buffer without its first
byte when that byte is `0`, the whole buffer otherwise. -/
theorem setReport_framing (N : Native) (w : World) (p : Nat) (dev : osxDevice)
    (typ : IOHIDReportType) (b : Nat) (rest : List Nat) (hheap : mapGet w.heap p = some dev)
    (hconn : dev.disconnected = false) (hne : b ≠ 0 ∨ rest ≠ []) :
    ∃ err, osxDevice.setReport N w p typ (b :: rest) =
      Except.ok ({ w with trace := w.trace ++
        [Event.IOHIDDeviceSetReport dev.osDevice typ b (if b = 0 then rest else b :: rest)] },
        err) := by
  by_cases hb : b = 0
  · subst hb
    have hrest : rest ≠ [] := by simpa using hne
    cases rest with
    | nil => exact absurd rfl hrest
    | cons r rs =>
      by_cases hs : N.setReport dev.osDevice typ 0 (r :: rs) = N.K IOReturnName.kIOReturnSuccess
      · exact ⟨none, by simp [osxDevice.setReport, hheap, hconn, hs]⟩
      · exact ⟨ioReturnToErr N.K (N.setReport dev.osDevice typ 0 (r :: rs)),
          by simp [osxDevice.setReport, hheap, hconn, hs]⟩
  · by_cases hs : N.setReport dev.osDevice typ b (b :: rest) = N.K IOReturnName.kIOReturnSuccess
    · exact ⟨none, by simp [osxDevice.setReport, hheap, hconn, hs, hb]⟩
    · exact ⟨ioReturnToErr N.K (N.setReport dev.osDevice typ b (b :: rest)),
        by simp [osxDevice.setReport, hheap, hconn, hs, hb]⟩

/-- On the opened sample session `Write([0x00, 0x01, 0x02])` transmits
`[0x01, 0x02]` with report id 0 and the output report type, and
`WriteFeature` does the same with the feature report type. -/
theorem Write_strips_zero_report_id :
    osxDevice.Write sampleNative sampleWorld 1 [0, 1, 2] =
      Except.ok ({ sampleWorld with trace := sampleWorld.trace ++
        [Event.IOHIDDeviceSetReport 7 IOHIDReportType.kIOHIDReportTypeOutput 0 [1, 2]] }, none) ∧
    osxDevice.WriteFeature sampleNative sampleWorld 1 [0, 1, 2] =
      Except.ok ({ sampleWorld with trace := sampleWorld.trace ++
        [Event.IOHIDDeviceSetReport 7 IOHIDReportType.kIOHIDReportTypeFeature 0 [1, 2]] }, none) :=
  ⟨rfl, rfl⟩

/-- C6, at the failing input: on the session that `Open` returned on the
sample host (not disconnected), `Write([0x00])` and `WriteFeature([0x00])`
strip the report id and then panic with an index out of range on `&data[0]`;
nothing is handed to the backend. -/
theorem Write_single_zero_byte_panics :
    DeviceInfo.Open sampleNative World.init (deviceInfoOf sampleNative 7) =
      Except.ok (sampleWorld, 1, none) ∧
    (∃ dev, mapGet sampleWorld.heap 1 = some dev ∧ dev.disconnected = false) ∧
    osxDevice.Write sampleNative sampleWorld 1 [0] = Except.error Fault.indexOutOfRange ∧
    osxDevice.WriteFeature sampleNative sampleWorld 1 [0] =
      Except.error Fault.indexOutOfRange :=
  ⟨rfl, ⟨_, rfl, rfl⟩, rfl, rfl⟩

/-! ## The read channel -/

theorem ReadCh_first (w : World) (p : Nat) (dev : osxDevice) (hheap : mapGet w.heap p = some dev)
    (hfresh : dev.readSetup = false) :
    osxDevice.ReadCh w p = Except.ok
      ({ heap := mapSet w.heap p
            { dev with readCh := some ⟨w.next + 1, 30, [], false⟩, readSetup := true }
         deviceCtx := w.deviceCtx
         next := w.next + 1
         trace := w.trace ++ [Event.goReadThread p] }, some (w.next + 1)) := by
  simp [osxDevice.ReadCh, osxDevice.startReadThread, hheap, hfresh, mapGet_mapSet_self,
    mapSet_mapSet]

theorem ReadCh_again (w : World) (p : Nat) (dev : osxDevice) (hheap : mapGet w.heap p = some dev)
    (hdone : dev.readSetup = true) :
    osxDevice.ReadCh w p = Except.ok (w, dev.readCh.map Chan.id) := by
  simp [osxDevice.ReadCh, hheap, hdone]

theorem readChTimes_done (w : World) (p : Nat) (dev : osxDevice)
    (hheap : mapGet w.heap p = some dev) (hdone : dev.readSetup = true) (k : Nat) :
    readChTimes w p k = Except.ok (w, List.replicate k (dev.readCh.map Chan.id)) := by
  induction k with
  | zero => rfl
  | succ k ih => simp [readChTimes, ReadCh_again w p dev hheap hdone, ih, List.replicate_succ]

/-- On a session whose `sync.Once` has not fired, `k + 1` successive calls of
`ReadCh` all return the channel made by the first call, which has capacity 30,
and the trace gains exactly one start of the read goroutine. -/
theorem readChTimes_fresh (w : World) (p : Nat) (dev : osxDevice)
    (hheap : mapGet w.heap p = some dev) (hfresh : dev.readSetup = false) (k : Nat) :
    readChTimes w p (k + 1) = Except.ok
      ({ heap := mapSet w.heap p
            { dev with readCh := some ⟨w.next + 1, 30, [], false⟩, readSetup := true }
         deviceCtx := w.deviceCtx
         next := w.next + 1
         trace := w.trace ++ [Event.goReadThread p] },
        List.replicate (k + 1) (some (w.next + 1))) := by
  have hdone := readChTimes_done
    { heap := mapSet w.heap p
        { dev with readCh := some ⟨w.next + 1, 30, [], false⟩, readSetup := true }
      deviceCtx := w.deviceCtx
      next := w.next + 1
      trace := w.trace ++ [Event.goReadThread p] } p
    { dev with readCh := some ⟨w.next + 1, 30, [], false⟩, readSetup := true }
    (mapGet_mapSet_self _ _ _) rfl k
  simp only [Option.map_some'] at hdone
  simp only [readChTimes, ReadCh_first w p dev hheap hfresh, hdone, List.replicate_succ]

/-- C5. For every device returned by `Open` and every `k ≥ 1`: before the
first call of `ReadCh` the channel is nil, the `sync.Once` has not fired and
`Open` has started no read goroutine; the first call starts the read
goroutine and returns a channel of capacity 30; `k` successive calls all
return that same channel, and after them the read goroutine has still been
started exactly once. -/
theorem ReadCh_lazy_once (N : Native) (w0 : World) (di : DeviceInfo) (w : World) (p : Nat)
    (err : Option String) (k : Nat)
    (hopen : DeviceInfo.Open N w0 di = Except.ok (w, p, err)) (hp : p ≠ 0) (hk : 1 ≤ k) :
    (∃ dev, mapGet w.heap p = some dev ∧ dev.readCh = none ∧ dev.readSetup = false) ∧
    (∀ q, Event.goReadThread q ∉ w.trace.drop w0.trace.length) ∧
    ∃ wfirst wlast dev1 ch,
      osxDevice.ReadCh w p = Except.ok (wfirst, some ch.id) ∧
      wfirst.trace = w.trace ++ [Event.goReadThread p] ∧
      readChTimes w p k = Except.ok (wlast, List.replicate k (some ch.id)) ∧
      wlast.trace = w.trace ++ [Event.goReadThread p] ∧
      mapGet wlast.heap p = some dev1 ∧ dev1.readCh = some ch ∧ ch.cap = 30 ∧
      ch.buf = [] := by
  obtain ⟨_, device, _, _, hheap, htrace⟩ := Open_spec N w0 di w p err hopen hp
  obtain ⟨j, rfl⟩ : ∃ j, k = j + 1 := ⟨k - 1, by omega⟩
  refine ⟨⟨_, hheap, rfl, rfl⟩, ?_, _, _, _, ⟨w.next + 1, 30, [], false⟩,
    ReadCh_first w p _ hheap rfl, rfl, readChTimes_fresh w p _ hheap rfl j, rfl,
    mapGet_mapSet_self _ _ _, rfl, rfl, rfl⟩
  intro q hq
  rw [htrace, List.drop_left] at hq
  simp at hq

/-- Witness for C5: three calls of `ReadCh` on the session `Open` returned on
the sample host. -/
theorem ReadCh_lazy_once_witness :
    (∃ dev, mapGet sampleWorld.heap 1 = some dev ∧ dev.readCh = none ∧ dev.readSetup = false) ∧
    (∀ q, Event.goReadThread q ∉ sampleWorld.trace.drop World.init.trace.length) ∧
    ∃ wfirst wlast dev1 ch,
      osxDevice.ReadCh sampleWorld 1 = Except.ok (wfirst, some ch.id) ∧
      wfirst.trace = sampleWorld.trace ++ [Event.goReadThread 1] ∧
      readChTimes sampleWorld 1 3 = Except.ok (wlast, List.replicate 3 (some ch.id)) ∧
      wlast.trace = sampleWorld.trace ++ [Event.goReadThread 1] ∧
      mapGet wlast.heap 1 = some dev1 ∧ dev1.readCh = some ch ∧ ch.cap = 30 ∧
      ch.buf = [] :=
  ReadCh_lazy_once sampleNative World.init (deviceInfoOf sampleNative 7) sampleWorld 1 none 3
    rfl (by decide) (by decide)

/-! ## Report delivery -/

theorem reportCallback_send (w : World) (h p : Nat) (dev : osxDevice) (ch : Chan)
    (report : List Nat) (hreg : mapGet w.deviceCtx h = some p)
    (hheap : mapGet w.heap p = some dev) (hch : dev.readCh = some ch)
    (hopen : ch.closed = false) (hroom : ch.buf.length < ch.cap) :
    reportCallback w h report = Except.ok
      { w with
          heap := mapSet w.heap p
            { dev with readCh := some { ch with buf := ch.buf ++ [report] } } } := by
  simp [reportCallback, hreg, hheap, hch, hopen, hroom]

theorem reportCallback_drop (w : World) (h p : Nat) (dev : osxDevice) (ch : Chan)
    (report : List Nat) (hreg : mapGet w.deviceCtx h = some p)
    (hheap : mapGet w.heap p = some dev) (hch : dev.readCh = some ch)
    (hopen : ch.closed = false) (hfull : ch.cap ≤ ch.buf.length) :
    reportCallback w h report = Except.ok w := by
  have hroom : ¬ ch.buf.length < ch.cap := by omega
  simp [reportCallback, hreg, hheap, hch, hopen, hroom]

theorem reportCallbacks_buf (h p : Nat) (reports : List (List Nat)) :
    ∀ (w : World) (dev : osxDevice) (ch : Chan), mapGet w.deviceCtx h = some p →
      mapGet w.heap p = some dev → dev.readCh = some ch → ch.closed = false →
      ∃ w1, reportCallbacks w h reports = Except.ok w1 ∧
        w1.deviceCtx = w.deviceCtx ∧ w1.trace = w.trace ∧
        mapGet w1.heap p =
          some { dev with
            readCh := some { ch with buf := ch.buf ++ reports.take (ch.cap - ch.buf.length) } } := by
  induction reports with
  | nil =>
    intro w dev ch _ hheap hch _
    refine ⟨w, rfl, rfl, rfl, ?_⟩
    rw [hheap]
    obtain ⟨osDevice, disconnected, closeDM, readSetup, readCh, readBufLen, readBuf, runLoop⟩ := dev
    simp only at hch
    subst hch
    simp
  | cons r rs ih =>
    intro w dev ch hreg hheap hch hopen
    by_cases hroom : ch.buf.length < ch.cap
    · obtain ⟨w1, hrun, hctx, htr, hbuf⟩ := ih
        { w with
            heap := mapSet w.heap p
              { dev with readCh := some { ch with buf := ch.buf ++ [r] } } }
        { dev with readCh := some { ch with buf := ch.buf ++ [r] } }
        { ch with buf := ch.buf ++ [r] } hreg (mapGet_mapSet_self _ _ _) rfl hopen
      refine ⟨w1, ?_, hctx, htr, ?_⟩
      · simp only [reportCallbacks, reportCallback_send w h p dev ch r hreg hheap hch hopen hroom,
          hrun]
      · rw [hbuf]
        have hk : ch.cap - ch.buf.length = (ch.cap - (ch.buf ++ [r]).length) + 1 := by
          simp only [List.length_append, List.length_singleton]; omega
        simp only [hk, List.take_succ_cons, List.append_assoc, List.singleton_append]
    · obtain ⟨w1, hrun, hctx, htr, hbuf⟩ := ih w dev ch hreg hheap hch hopen
      refine ⟨w1, ?_, hctx, htr, ?_⟩
      · simp only [reportCallbacks,
          reportCallback_drop w h p dev ch r hreg hheap hch hopen (by omega), hrun]
      · rw [hbuf]
        have hk : ch.cap - ch.buf.length = 0 := by omega
        simp [hk]

/-- C4. For a session registered under `h` whose delivery channel has capacity
30, is open and empty, every sequence of `n` reports delivered through
`reportCallback` with no receive in between is processed without a panic and
without blocking, and the channel then holds the first `min n 30` reports, never
more than 30, and exactly 30 for `n = 40`; a report that arrives while the
channel holds 30 reports leaves the whole state unchanged. -/
theorem reportCallback_backpressure (w : World) (h p : Nat) (dev : osxDevice) (ch : Chan)
    (reports : List (List Nat)) (hreg : mapGet w.deviceCtx h = some p)
    (hheap : mapGet w.heap p = some dev) (hch : dev.readCh = some ch) (hcap : ch.cap = 30)
    (hopen : ch.closed = false) (hempty : ch.buf = []) :
    ∃ w1 dev1 ch1, reportCallbacks w h reports = Except.ok w1 ∧
      mapGet w1.heap p = some dev1 ∧ dev1.readCh = some ch1 ∧ ch1.id = ch.id ∧
      ch1.buf = reports.take 30 ∧ ch1.buf.length = min reports.length 30 ∧
      ch1.buf.length ≤ 30 ∧ (reports.length = 40 → ch1.buf.length = 30) ∧
      (30 ≤ reports.length → ∀ r, reportCallback w1 h r = Except.ok w1) := by
  obtain ⟨w1, hrun, hctx, _, hbuf⟩ := reportCallbacks_buf h p reports w dev ch hreg hheap hch hopen
  simp only [hempty, hcap, List.length_nil, Nat.sub_zero, List.nil_append] at hbuf
  refine ⟨w1, _, _, hrun, hbuf, rfl, rfl, rfl, ?_, ?_, ?_, ?_⟩
  · simp [List.length_take, Nat.min_comm]
  · simp [List.length_take]
  · intro h40; simp [List.length_take, h40]
  · intro h30 r
    refine reportCallback_drop w1 h p _ _ r (hctx ▸ hreg) hbuf rfl hopen ?_
    simp only [hcap, List.length_take]
    omega

/-- Witness for C4: forty reports delivered to the sample session after its
first `ReadCh`. -/
theorem reportCallback_backpressure_witness :
    ∃ w1 dev1 ch1, reportCallbacks sampleReading 7 (List.replicate 40 [1, 2]) = Except.ok w1 ∧
      mapGet w1.heap 1 = some dev1 ∧ dev1.readCh = some ch1 ∧ ch1.id = 2 ∧
      ch1.buf = (List.replicate 40 [1, 2]).take 30 ∧
      ch1.buf.length = min (List.replicate 40 [1, 2]).length 30 ∧
      ch1.buf.length ≤ 30 ∧ ((List.replicate 40 [1, 2]).length = 40 → ch1.buf.length = 30) ∧
      (30 ≤ (List.replicate 40 [1, 2]).length → ∀ r, reportCallback w1 7 r = Except.ok w1) :=
  reportCallback_backpressure sampleReading 7 1
    { sampleDevice with readSetup := true, readCh := some ⟨2, 30, [], false⟩ } ⟨2, 30, [], false⟩
    (List.replicate 40 [1, 2]) rfl rfl rfl rfl rfl rfl

end Hid
